import Mathlib

/-!
Verification of the orange-file-encryption-tool orchestration core.

The development shallowly embeds the control flow of `src/gui.py`
(`YSTApplication`) and `src/main.py` (compatibility-mode `main`).  The
collaborator modules (`modules.encryption_detector`,
`modules.file_processor`, `modules.config`) are not part of the sources;
the embedded functions therefore take the classifier, the driver and the
configuration as explicit functional parameters and the theorems quantify
over every possible behaviour of those collaborators.
-/

/-- A detection result as produced by the classifier
(`get_detection_result` / `check_file_encryption_with_feedback`): a status
string, a numeric status code (0 = unencrypted, 1 = encrypted,
2 = unrecognized, -1 = missing) and an optional file type. -/
structure Detection where
  status : String
  status_code : Int
  file_type : Option String
deriving DecidableEq, Repr

/-- Outcome emitted by the GUI decrypt worker
(`YSTApplication.process_decrypt_task`, src/gui.py:450-565).  Each
constructor corresponds to one `add_result` call in the worker body. -/
inductive TaskReport where
  | skippedNotEncrypted (status : String)
  | decryptedVerified (decryptedPath : String)
  | decryptedUnverified (decryptedPath : String)
  | decryptFailed
  | taskError (msg : String)
deriving DecidableEq, Repr

/-- Embedding of `YSTApplication.process_decrypt_task` (src/gui.py:450-565).
The classifier and the driver may raise (modelled by `Except String`); the
`taskError` branches are the enclosing `try`/`except` of the worker, which
converts any exception raised by the classifier, the driver or the
verification re-classification into an error report instead of letting it
propagate.  The second component counts how many times the driver
(`process_encrypted_file`) is invoked. -/
def process_decrypt_task (classify : String → Except String Detection)
    (driver : String → Option String → Except String (Option String))
    (wpsPath : Option String) (filePath : String) : TaskReport × Nat :=
  match classify filePath with
  | .error e => (.taskError e, 0)
  | .ok result =>
    if result.status_code ≠ 1 then
      (.skippedNotEncrypted result.status, 0)
    else
      match driver filePath wpsPath with
      | .error e => (.taskError e, 1)
      | .ok none => (.decryptFailed, 1)
      | .ok (some decryptedPath) =>
        match classify decryptedPath with
        | .error e => (.taskError e, 1)
        | .ok verifyResult =>
          if verifyResult.status_code = 0 then (.decryptedVerified decryptedPath, 1)
          else (.decryptedUnverified decryptedPath, 1)

/-- Per-path report category of the compatibility mode of `main`
(src/main.py:113-152).  Each constructor corresponds to one of the print
branches. -/
inductive CompatReport where
  | notFound
  | unencryptedSkipped
  | unrecognizedSkipped
  | decryptedVerified
  | decryptedUnverified
  | decryptFailed
deriving DecidableEq, Repr

/-- Modelled from the spec: the contract of
`modules.encryption_detector.check_file_encryption_with_feedback`, whose
module is not among the sources — `Classify(path) -> DetectionResult` is a
total function that never raises past its boundary (spec §4.1); all
failure is encoded in the returned statuses. -/
abbrev Classifier : Type := String → Detection

/-- Modelled from the spec: the contract of
`modules.file_processor.open_and_process_file`, whose module is not among
the sources — `Decrypt(path, programPath)` returns the decrypted path on
success and no path on failure, never raising past its boundary
(spec §4.2). -/
abbrev CompatDriver : Type := String → Option String → Option String

/-- Embedding of the per-path body of the compatibility-mode loop in `main`
(src/main.py:114-152).  `pathExists` embeds `os.path.exists`; `classify`
embeds `check_file_encryption_with_feedback`; `driver` embeds
`open_and_process_file` returning the decrypted path or `None`. -/
def compatProcessPath (pathExists : String → Bool) (classify : Classifier)
    (driver : CompatDriver) (wpsPath : Option String)
    (path : String) : CompatReport :=
  if pathExists path then
    let result := classify path
    if result.status_code = 1 then
      match driver path wpsPath with
      | some decryptedPath =>
        if (classify decryptedPath).status_code = 0 then .decryptedVerified
        else .decryptedUnverified
      | none => .decryptFailed
    else if result.status_code = 0 then .unencryptedSkipped
    else .unrecognizedSkipped
  else .notFound

/-- Embedding of the compatibility-mode loop of `main` over
`paths = sys.argv[1:]` (src/main.py:113-152): one report per input path. -/
def compatMain (pathExists : String → Bool) (classify : Classifier)
    (driver : CompatDriver) (wpsPath : Option String)
    (paths : List String) : List CompatReport :=
  paths.map (compatProcessPath pathExists classify driver wpsPath)

/-! ### Version comparison (`YSTApplication._compare_versions`, src/gui.py:776-801) -/

/-- Checks that the characters after the leading digit form a valid Python
integer-literal tail: digits, with single underscores allowed only between
digits. -/
def pyDigitTail : List Char → Bool
  | [] => true
  | '_' :: rest =>
    match rest with
    | [] => false
    | d :: rest2 => d.isDigit && pyDigitTail rest2
  | c :: rest => c.isDigit && pyDigitTail rest

/-- A nonempty digit sequence (underscore grouping allowed), as accepted by
Python `int`. -/
def pyDigits : List Char → Bool
  | [] => false
  | c :: rest => c.isDigit && pyDigitTail rest

/-- Numeric value of a digit sequence, ignoring underscore separators. -/
def pyDigitsVal (cs : List Char) : Nat :=
  (cs.filter (fun c => c ≠ '_')).foldl (fun n c => n * 10 + (c.toNat - 48)) 0

/-- Whitespace characters ignored by Python `int` around a numeric
string. -/
def pySpace (c : Char) : Bool :=
  c = ' ' || c = '\t' || c = '\n' || c = '\r' || c = '\x0b' || c = '\x0c'

/-- Strip leading and trailing whitespace from a character list. -/
def pyStrip (cs : List Char) : List Char :=
  ((cs.dropWhile pySpace).reverse.dropWhile pySpace).reverse

/-- Embedding of Python `int(s)` on a character list: surrounding
whitespace is ignored, an optional single sign is allowed, the rest must
be a digit sequence; failure is `none` (the `ValueError` caught by the
`except` in `_compare_versions`). -/
def pyIntChars (s : List Char) : Option Int :=
  match pyStrip s with
  | '+' :: rest => if pyDigits rest then some (Int.ofNat (pyDigitsVal rest)) else none
  | '-' :: rest => if pyDigits rest then some (-(Int.ofNat (pyDigitsVal rest))) else none
  | cs => if pyDigits cs then some (Int.ofNat (pyDigitsVal cs)) else none

/-- Embedding of Python `int` on a string. -/
def pyInt (s : String) : Option Int := pyIntChars s.data

/-- Python `str.split('.')` on a character list: the groups between the
dots, empty groups included (so `"".split('.') == ['']`). -/
def splitOnDot : List Char → List (List Char)
  | [] => [[]]
  | '.' :: rest => [] :: splitOnDot rest
  | c :: rest =>
    match splitOnDot rest with
    | [] => [[c]]
    | g :: gs => (c :: g) :: gs

/-- `[int(x) for x in version.split('.')]`, with `none` when any component
fails to parse. -/
def versionParts (s : String) : Option (List Int) :=
  (splitOnDot s.data).mapM pyIntChars

/-- The comparison loop of `_compare_versions` (src/gui.py:793-799) on two
equal-length padded component lists: first unequal component decides. -/
def cmpComponents : List Int → List Int → Int
  | x :: xs, y :: ys =>
    if x > y then 1 else if x < y then -1 else cmpComponents xs ys
  | _, _ => 0

/-- Embedding of `YSTApplication._compare_versions` (src/gui.py:776-801):
parse both versions, right-pad the shorter component list with zeros,
compare component-wise; any parse failure (the `except`) yields 0. -/
def _compare_versions (version1 version2 : String) : Int :=
  match versionParts version1, versionParts version2 with
  | some v1, some v2 =>
    let maxLen := max v1.length v2.length
    cmpComponents (v1 ++ List.replicate (maxLen - v1.length) 0)
      (v2 ++ List.replicate (maxLen - v2.length) 0)
  | _, _ => 0

/-- Comparison of component sequences written from the spec's words
(spec §6): compare component-wise left to right with the shorter sequence
right-padded with zeros; the first unequal component decides. -/
def specCmpZeroExt : List Int → List Int → Int
  | [], [] => 0
  | [], y :: ys => if (0 : Int) > y then 1 else if (0 : Int) < y then -1 else specCmpZeroExt [] ys
  | x :: xs, [] => if x > 0 then 1 else if x < 0 then -1 else specCmpZeroExt xs []
  | x :: xs, y :: ys => if x > y then 1 else if x < y then -1 else specCmpZeroExt xs ys

/-- Version comparison written from the spec's words (spec §6): split on
`.`, parse each component as an integer, right-pad the shorter sequence
with zeros, compare component-wise left to right; any parse failure yields
0. -/
def compareVersionsSpec (a b : String) : Int :=
  match versionParts a, versionParts b with
  | some xs, some ys => specCmpZeroExt xs ys
  | _, _ => 0

/-! ### Update check (`YSTApplication.check_for_updates`, src/gui.py:645-774) -/

/-- The result of the single `requests.get` call made by
`check_updates_thread`, as observed by the surrounding `try`: either an
HTTP response (status code plus the consumed JSON fields `tag_name`,
`html_url`, `body`), or one of the exception classes handled by the
`except` clauses. -/
inductive HttpResult where
  | response (statusCode : Nat) (tagName htmlUrl body : String)
  | timeoutError
  | connectionError
  | otherError (msg : String)
deriving DecidableEq, Repr

/-- The releases-metadata endpoint queried by the update check
(src/gui.py:668). -/
def api_url : String :=
  "https://api.github.com/repos/YST-Team/file-encryption-tool/releases/latest"

/-- The version string the update check compares against (src/gui.py:681). -/
def current_version : String := "5.1"

/-- The timeout, in seconds, passed to `requests.get` (src/gui.py:673). -/
def updateTimeoutSeconds : Nat := 10

/-- Embedding of `check_updates_thread` (src/gui.py:653-770), returning the
final value of `update_status_var`.  The network call is abstracted as a
function of the URL and of the timeout passed to it; every exception class
is mapped to its own status message by the `except` chain, so the routine
is total (nothing propagates to the host process). -/
def check_updates_thread (httpGet : String → Nat → HttpResult) : String :=
  match httpGet api_url updateTimeoutSeconds with
  | .response code tag _ _ =>
    if code = 200 then
      let latest := tag.dropWhile (fun c => c = 'v')
      if _compare_versions latest current_version > 0 then "发现新版本！"
      else "已是最新版本"
    else "检查失败"
  | .timeoutError => "检查超时"
  | .connectionError => "网络错误"
  | .otherError _ => "检查失败"

/-! ### Directory enqueueing (`YSTApplication.decrypt_file`, src/gui.py:400-418) -/

/-- A node of the file-system tree below a directory: a regular file or a
subdirectory with its entries. -/
inductive FSNode where
  | file (name : String)
  | dir (name : String) (entries : List FSNode)
deriving Repr

/-- `os.path.join` of a directory path and an entry name. -/
def joinPath (p name : String) : String := p ++ "/" ++ name

/-- The regular files directly inside a directory, as full paths
(`os.path.join(root, file)`). -/
def filesHere (p : String) : List FSNode → List String
  | [] => []
  | .file n :: rest => joinPath p n :: filesHere p rest
  | .dir _ _ :: rest => filesHere p rest

/-- The file paths contributed by the subdirectories of a directory, in
`os.walk` order: for each subdirectory, its own files first, then its
nested subdirectories. -/
def dirsWalk (p : String) : List FSNode → List String
  | [] => []
  | .file _ :: rest => dirsWalk p rest
  | .dir n es :: rest =>
    (filesHere (joinPath p n) es ++ dirsWalk (joinPath p n) es) ++ dirsWalk p rest

/-- All regular-file paths produced by `os.walk(path)` on a directory whose
entries are `es`: the files of the top directory, then the recursive walk
of its subdirectories. -/
def walkDir (p : String) (es : List FSNode) : List String :=
  filesHere p es ++ dirsWalk p es

/-- Number of regular files anywhere in a list of entries. -/
def countFiles : List FSNode → Nat
  | [] => 0
  | .file _ :: rest => 1 + countFiles rest
  | .dir _ es :: rest => countFiles es + countFiles rest

/-- A task as placed on `self.task_queue`: a task-type tag and a file
path (src/gui.py:415,418). -/
abbrev QueuedTask : Type := String × String

/-- Embedding of `YSTApplication.decrypt_file` (src/gui.py:400-418): for a
directory, one `('decrypt', file_path)` task is enqueued per regular file
found by `os.walk`; for a single file, one task for that path.  No
classifier is consulted here. -/
def decrypt_file (isDirectory : Bool) (path : String) (entries : List FSNode) :
    List QueuedTask :=
  if isDirectory then (walkDir path entries).map (fun f => ("decrypt", f))
  else [("decrypt", path)]

/-! ### Scheduler (`YSTApplication.process_queue`, src/gui.py:420-448) -/

/-- A worker thread as tracked in `self.thread_pool`: a unique identifier
and its `is_alive()` flag. -/
structure Worker where
  wid : Nat
  alive : Bool
deriving DecidableEq, Repr

/-- `self.max_threads = ... .get('max_threads', 5)` (src/gui.py:49): the
configured value when present, 5 otherwise. -/
def maxThreadsSetting (cfg : Option Nat) : Nat := cfg.getD 5

/-- The admission loop of `process_queue` (src/gui.py:424-436): while the
pool holds fewer than `max_threads` entries and the queue is non-empty,
pop a task; a `'decrypt'` task starts a worker appended to the pool, any
other task type is dropped (`continue`).  Returns the remaining queue, the
new pool and the next fresh worker identifier. -/
def admitLoop (maxT : Nat) : List QueuedTask → List Worker → Nat →
    List QueuedTask × List Worker × Nat
  | [], pool, nid => ([], pool, nid)
  | t :: rest, pool, nid =>
    if pool.length < maxT then
      if t.1 = "decrypt" then
        admitLoop maxT rest (pool ++ [⟨nid, true⟩]) (nid + 1)
      else admitLoop maxT rest pool nid
    else (t :: rest, pool, nid)

/-- The cleanup loop of `process_queue` (src/gui.py:439-441), with Python's
remove-while-iterating semantics: the iteration index advances by one each
step while `list.remove` deletes the first occurrence of a finished
worker, shifting later entries left; the loop stops once the index passes
the end of the (possibly shortened) list.  The first argument only bounds
the number of iterations: since the index grows by one per step and the
list never grows, `pool.length` steps are always enough. -/
def cleanupAux : Nat → List Worker → Nat → List Worker
  | 0, pool, _ => pool
  | fuel + 1, pool, i =>
    if h : i < pool.length then
      if (pool.get ⟨i, h⟩).alive then cleanupAux fuel pool (i + 1)
      else cleanupAux fuel (pool.erase (pool.get ⟨i, h⟩)) (i + 1)
    else pool

/-- The cleanup pass over the whole thread pool (src/gui.py:439-441). -/
def cleanupPool (pool : List Worker) : List Worker :=
  cleanupAux pool.length pool 0

/-- The state shared between the dispatch loop, `decrypt_file` and the
worker threads: the task queue, the thread pool and a supply of fresh
worker identifiers. -/
structure SchedState where
  queue : List QueuedTask
  pool : List Worker
  nextId : Nat
deriving DecidableEq, Repr

/-- One `process_queue` tick (src/gui.py:420-448): admit new workers, then
prune finished ones. -/
def schedTick (maxT : Nat) (s : SchedState) : SchedState :=
  let r := admitLoop maxT s.queue s.pool s.nextId
  ⟨r.1, cleanupPool r.2.1, r.2.2⟩

/-- A worker thread finishing: its `is_alive()` flag becomes false. -/
def finishWorker (j : Nat) (pool : List Worker) : List Worker :=
  pool.map (fun w => if w.wid = j then ⟨w.wid, false⟩ else w)

/-- The states reachable from initialisation (`task_queue` empty,
`thread_pool` empty, src/gui.py:47-48) under any interleaving of
enqueueing, dispatch ticks and worker completions. -/
inductive SchedReachable (maxT : Nat) : SchedState → Prop where
  | init : SchedReachable maxT ⟨[], [], 0⟩
  | enqueue {s : SchedState} (t : QueuedTask) : SchedReachable maxT s →
      SchedReachable maxT ⟨s.queue ++ [t], s.pool, s.nextId⟩
  | tick {s : SchedState} : SchedReachable maxT s →
      SchedReachable maxT (schedTick maxT s)
  | finish {s : SchedState} (j : Nat) : SchedReachable maxT s →
      SchedReachable maxT ⟨s.queue, finishWorker j s.pool, s.nextId⟩

/-- Number of started-and-not-yet-finished workers: the pool entries whose
`is_alive()` flag is still set. -/
def liveCount (pool : List Worker) : Nat :=
  (pool.filter (fun w => w.alive)).length

/-! ## Theorems -/

/-- The components compared by `cmpComponents` after explicit zero-padding
coincide with the spec's zero-extended comparison. -/
theorem cmpComponents_pad_eq_spec (xs ys : List Int) :
    cmpComponents (xs ++ List.replicate (max xs.length ys.length - xs.length) 0)
      (ys ++ List.replicate (max xs.length ys.length - ys.length) 0) =
    specCmpZeroExt xs ys := by
  match xs, ys with
  | [], [] => simp [cmpComponents, specCmpZeroExt]
  | [], y :: ys =>
    have ih := cmpComponents_pad_eq_spec [] ys
    simp only [List.nil_append, List.length_nil, Nat.zero_max, Nat.sub_zero, Nat.sub_self,
      List.replicate_zero, List.append_nil, List.length_cons] at ih ⊢
    rw [List.replicate_succ]
    simp only [cmpComponents, specCmpZeroExt]
    split_ifs <;> simp [ih]
  | x :: xs, [] =>
    have ih := cmpComponents_pad_eq_spec xs []
    simp only [List.nil_append, List.length_nil, Nat.zero_max, Nat.max_zero, Nat.sub_zero,
      Nat.sub_self, List.replicate_zero, List.append_nil, List.length_cons] at ih ⊢
    rw [List.replicate_succ]
    simp only [cmpComponents, specCmpZeroExt, List.cons_append]
    split_ifs <;> simp [ih]
  | x :: xs, y :: ys =>
    have ih := cmpComponents_pad_eq_spec xs ys
    simp only [List.length_cons, Nat.succ_max_succ, Nat.succ_sub_succ, List.cons_append]
    simp only [cmpComponents, specCmpZeroExt]
    split_ifs <;> simp [ih]

/-- Claim C4: `_compare_versions` equals the reference definition (split on
dots, parse components as integers, right-pad the shorter list with zeros,
compare component-wise with the first unequal component deciding, and 0 on
any parse failure), and the four concrete comparisons behave as
specified. -/
theorem compare_versions_refines_spec :
    (∀ a b : String, _compare_versions a b = compareVersionsSpec a b) ∧
    _compare_versions "5.2" "5.1" = 1 ∧
    _compare_versions "5.1" "5.1.0" = 0 ∧
    _compare_versions "5.1" "5.2" = -1 ∧
    _compare_versions "abc" "1.0" = 0 := by
  refine ⟨?_, by decide, by decide, by decide, by decide⟩
  intro a b
  rcases hva : versionParts a with _ | xs <;> rcases hvb : versionParts b with _ | ys <;>
    simp only [_compare_versions, compareVersionsSpec, hva, hvb]
  exact cmpComponents_pad_eq_spec xs ys

/-- The comparison loop is antisymmetric. -/
theorem cmpComponents_antisymm : ∀ xs ys : List Int,
    cmpComponents xs ys = -(cmpComponents ys xs) := by
  intro xs
  induction xs with
  | nil => intro ys; cases ys <;> simp [cmpComponents]
  | cons x xs ih =>
    intro ys
    cases ys with
    | nil => simp [cmpComponents]
    | cons y ys =>
      simp only [cmpComponents]
      rcases lt_trichotomy x y with h | h | h
      · simp [not_lt.mpr h.le, h]
      · simp [h, lt_irrefl, ih ys]
      · simp [not_lt.mpr h.le, h]

/-- Claim C9: `_compare_versions` is antisymmetric —
`compare(a, b) = -compare(b, a)` for all strings, which also forces
`compare(v, v) = 0` for every string, unparseable ones included. -/
theorem compare_versions_antisymm :
    ∀ a b : String, _compare_versions a b = -(_compare_versions b a) := by
  intro a b
  rcases hva : versionParts a with _ | xs <;> rcases hvb : versionParts b with _ | ys <;>
    simp only [_compare_versions, hva, hvb, neg_zero]
  rw [Nat.max_comm ys.length xs.length]
  exact cmpComponents_antisymm _ _

/-- Claim C8: the update check reports a network timeout, a connection
failure and any other failure as three pairwise-distinct status messages,
none of which propagates as an exception (the routine is a total function
into status strings), and the HTTP GET is issued with a 10-second
timeout. -/
theorem update_check_distinct_failures :
    ∀ httpGet : String → Nat → HttpResult,
      (httpGet api_url updateTimeoutSeconds = .timeoutError →
        check_updates_thread httpGet = "检查超时") ∧
      (httpGet api_url updateTimeoutSeconds = .connectionError →
        check_updates_thread httpGet = "网络错误") ∧
      (∀ msg, httpGet api_url updateTimeoutSeconds = .otherError msg →
        check_updates_thread httpGet = "检查失败") ∧
      ("检查超时" : String) ≠ "网络错误" ∧
      ("检查超时" : String) ≠ "检查失败" ∧
      ("网络错误" : String) ≠ "检查失败" ∧
      updateTimeoutSeconds = 10 := by
  intro httpGet
  refine ⟨?_, ?_, ?_, by decide, by decide, by decide, rfl⟩
  · intro h; simp [check_updates_thread, h]
  · intro h; simp [check_updates_thread, h]
  · intro msg h; simp [check_updates_thread, h]

/-- Witness for C8 at a network stub that times out. -/
theorem update_check_distinct_failures_witness :
    check_updates_thread (fun _ _ => HttpResult.timeoutError) = "检查超时" :=
  (update_check_distinct_failures (fun _ _ => HttpResult.timeoutError)).1 rfl

/-- Claim C2: whenever the classifier reports a status code other than 1
(not `Encrypted`), the decrypt worker emits the skip outcome and stops
with zero driver invocations; conversely the driver is invoked only when
the classification succeeded with status code 1. -/
theorem decrypt_worker_skips_non_encrypted :
    ∀ (classify : String → Except String Detection)
      (driver : String → Option String → Except String (Option String))
      (wpsPath : Option String) (filePath : String),
      (∀ r, classify filePath = .ok r → r.status_code ≠ 1 →
        process_decrypt_task classify driver wpsPath filePath =
          (.skippedNotEncrypted r.status, 0)) ∧
      ((process_decrypt_task classify driver wpsPath filePath).2 ≠ 0 →
        ∃ r, classify filePath = .ok r ∧ r.status_code = 1) := by
  intro classify driver wpsPath filePath
  constructor
  · intro r hc hne
    simp [process_decrypt_task, hc, hne]
  · intro hcount
    cases hc : classify filePath with
    | error e => simp [process_decrypt_task, hc] at hcount
    | ok r =>
      by_cases h1 : r.status_code = 1
      · exact ⟨r, rfl, h1⟩
      · simp [process_decrypt_task, hc, h1] at hcount

/-- Witness for C2 at a classifier reporting status code 0. -/
theorem decrypt_worker_skips_non_encrypted_witness :
    process_decrypt_task (fun _ => .ok ⟨"未加密", 0, none⟩)
      (fun _ _ => .ok (some "out")) none "f" =
      (.skippedNotEncrypted "未加密", 0) :=
  (decrypt_worker_skips_non_encrypted (fun _ => .ok ⟨"未加密", 0, none⟩)
    (fun _ _ => .ok (some "out")) none "f").1 ⟨"未加密", 0, none⟩ rfl (by decide)

/-- Claim C3: when the driver produced a decrypted path, the outcome is the
verified success report exactly when re-classifying that path yields
status code 0; any other verification status code — unrecognized included —
yields the inconclusive-warning report, never the success report.  The
same holds for the compatibility mode of `main`. -/
theorem verify_passed_iff_unencrypted :
    (∀ (classify : String → Except String Detection)
       (driver : String → Option String → Except String (Option String))
       (wpsPath : Option String) (filePath : String) (r v : Detection)
       (dp : String),
       classify filePath = .ok r → r.status_code = 1 →
       driver filePath wpsPath = .ok (some dp) → classify dp = .ok v →
       (((process_decrypt_task classify driver wpsPath filePath).1 =
           .decryptedVerified dp ↔ v.status_code = 0) ∧
        (v.status_code ≠ 0 →
          (process_decrypt_task classify driver wpsPath filePath).1 =
            .decryptedUnverified dp))) ∧
    (∀ (pathExists : String → Bool) (classify : String → Detection)
       (driver : String → Option String → Option String)
       (wpsPath : Option String) (path dp : String),
       pathExists path = true → (classify path).status_code = 1 →
       driver path wpsPath = some dp →
       (compatProcessPath pathExists classify driver wpsPath path =
           .decryptedVerified ↔ (classify dp).status_code = 0)) := by
  constructor
  · intro classify driver wpsPath filePath r v dp hc h1 hd hv
    constructor
    · by_cases h0 : v.status_code = 0 <;>
        simp [process_decrypt_task, hc, h1, hd, hv, h0]
    · intro h0
      simp [process_decrypt_task, hc, h1, hd, hv, h0]
  · intro pathExists classify driver wpsPath path dp he h1 hd
    by_cases h0 : (classify dp).status_code = 0 <;>
      simp [compatProcessPath, he, h1, hd, h0]

/-- Witness for C3: a driver output that re-classifies to status code 0 is
reported as verified. -/
theorem verify_passed_iff_unencrypted_witness :
    (process_decrypt_task
      (fun p => if p = "f" then .ok ⟨"已加密", 1, none⟩ else .ok ⟨"未加密", 0, none⟩)
      (fun _ _ => .ok (some "out")) none "f").1 = .decryptedVerified "out" :=
  ((verify_passed_iff_unencrypted.1
    (fun p => if p = "f" then .ok ⟨"已加密", 1, none⟩ else .ok ⟨"未加密", 0, none⟩)
    (fun _ _ => .ok (some "out")) none "f" ⟨"已加密", 1, none⟩ ⟨"未加密", 0, none⟩
    "out" rfl rfl rfl rfl).1).mpr rfl

/-- Claim C6: an exception raised by the classifier, the driver or the
verification re-classification is caught at the worker boundary and
converted into an error report — `process_decrypt_task` is a total
function into reports, so a failing task still yields exactly one report
and a batch over any task list yields one report per task. -/
theorem worker_converts_exceptions :
    ∀ (classify : String → Except String Detection)
      (driver : String → Option String → Except String (Option String))
      (wpsPath : Option String) (filePath : String),
      (∀ e, classify filePath = .error e →
        process_decrypt_task classify driver wpsPath filePath = (.taskError e, 0)) ∧
      (∀ e r, classify filePath = .ok r → r.status_code = 1 →
        driver filePath wpsPath = .error e →
        process_decrypt_task classify driver wpsPath filePath = (.taskError e, 1)) ∧
      (∀ e r dp, classify filePath = .ok r → r.status_code = 1 →
        driver filePath wpsPath = .ok (some dp) → classify dp = .error e →
        process_decrypt_task classify driver wpsPath filePath = (.taskError e, 1)) ∧
      (∀ tasks : List String,
        (tasks.map (process_decrypt_task classify driver wpsPath)).length =
          tasks.length) := by
  intro classify driver wpsPath filePath
  refine ⟨?_, ?_, ?_, fun tasks => List.length_map tasks _⟩
  · intro e hc
    simp [process_decrypt_task, hc]
  · intro e r hc h1 hd
    simp [process_decrypt_task, hc, h1, hd]
  · intro e r dp hc h1 hd hv
    simp [process_decrypt_task, hc, h1, hd, hv]

/-- Witness for C6 at a classifier that raises. -/
theorem worker_converts_exceptions_witness :
    process_decrypt_task (fun _ => .error "boom")
      (fun _ _ => .ok none) none "f" = (.taskError "boom", 0) :=
  (worker_converts_exceptions (fun _ => .error "boom")
    (fun _ _ => .ok none) none "f").1 "boom" rfl

/-- Claim C7: compatibility mode emits exactly one outcome report per input
path — none dropped — and every report falls into exactly one of the six
categories: not found, unencrypted (skipped), unrecognized (skipped),
decrypted-and-verified, decrypted-but-unverified, decryption-failed. -/
theorem compat_mode_one_report_per_path :
    ∀ (pathExists : String → Bool) (classify : String → Detection)
      (driver : String → Option String → Option String)
      (wpsPath : Option String) (paths : List String),
      (compatMain pathExists classify driver wpsPath paths).length = paths.length ∧
      (∀ r ∈ compatMain pathExists classify driver wpsPath paths,
        r = .notFound ∨ r = .unencryptedSkipped ∨ r = .unrecognizedSkipped ∨
        r = .decryptedVerified ∨ r = .decryptedUnverified ∨ r = .decryptFailed) := by
  intro pathExists classify driver wpsPath paths
  refine ⟨List.length_map paths _, ?_⟩
  intro r _
  cases r <;> simp

/-- Witness for C7 at a two-path batch. -/
theorem compat_mode_one_report_per_path_witness :
    (compatMain (fun _ => false) (fun _ => ⟨"未识别", 2, none⟩) (fun _ _ => none)
        none ["a", "b"]).length = 2 ∧
    (CompatReport.notFound = .notFound ∨ CompatReport.notFound = .unencryptedSkipped ∨
     CompatReport.notFound = .unrecognizedSkipped ∨
     CompatReport.notFound = .decryptedVerified ∨
     CompatReport.notFound = .decryptedUnverified ∨
     CompatReport.notFound = .decryptFailed) := by
  have h := compat_mode_one_report_per_path (fun _ => false)
    (fun _ => ⟨"未识别", 2, none⟩) (fun _ _ => none) none ["a", "b"]
  exact ⟨h.1, h.2 .notFound (by decide)⟩

/-- Claim C10: in compatibility mode the not-found report arises only from
the existence check that precedes classification — for a path that exists,
the report is never `notFound`, and a classification status code that is
neither 0 nor 1 (the `Missing` code -1 included) lands in the final `else`
branch, reported as unrecognized-and-skipped. -/
theorem compat_not_found_only_missing_path :
    ∀ (pathExists : String → Bool) (classify : String → Detection)
      (driver : String → Option String → Option String)
      (wpsPath : Option String) (path : String),
      (compatProcessPath pathExists classify driver wpsPath path = .notFound ↔
        pathExists path = false) ∧
      (pathExists path = true → (classify path).status_code ≠ 0 →
        (classify path).status_code ≠ 1 →
        compatProcessPath pathExists classify driver wpsPath path =
          .unrecognizedSkipped) := by
  intro pathExists classify driver wpsPath path
  constructor
  · constructor
    · intro h
      by_contra hne
      rw [Bool.not_eq_false] at hne
      by_cases h1 : (classify path).status_code = 1
      · rcases hd : driver path wpsPath with _ | dp
        · simp [compatProcessPath, hne, h1, hd] at h
        · by_cases h0 : (classify dp).status_code = 0 <;>
            simp [compatProcessPath, hne, h1, hd, h0] at h
      · by_cases h0 : (classify path).status_code = 0 <;>
          simp [compatProcessPath, hne, h1, h0] at h
    · intro h
      simp [compatProcessPath, h]
  · intro he h0 h1
    simp [compatProcessPath, he, h0, h1]

/-- Witness for C10: a path that exists but classifies with the `Missing`
code -1 is reported as unrecognized-and-skipped. -/
theorem compat_not_found_only_missing_path_witness :
    compatProcessPath (fun _ => true) (fun _ => ⟨"文件不存在", -1, none⟩)
      (fun _ _ => none) none "p" = .unrecognizedSkipped :=
  (compat_not_found_only_missing_path (fun _ => true)
    (fun _ => ⟨"文件不存在", -1, none⟩) (fun _ _ => none) none "p").2 rfl
    (by decide) (by decide)

/-- Number of regular-file entries directly at the top of a directory
listing. -/
def topFileCount : List FSNode → Nat
  | [] => 0
  | .file _ :: rest => 1 + topFileCount rest
  | .dir _ _ :: rest => topFileCount rest

/-- `filesHere` yields one path per top-level regular file. -/
theorem filesHere_length (p : String) :
    ∀ es : List FSNode, (filesHere p es).length = topFileCount es := by
  intro es
  induction es with
  | nil => simp [filesHere, topFileCount]
  | cons e rest ih =>
    cases e with
    | file n => simp [filesHere, topFileCount, ih]; omega
    | dir n es => simp [filesHere, topFileCount, ih]

/-- The subdirectory walk yields exactly the nested (non-top-level)
regular files. -/
theorem dirsWalk_length (p : String) (es : List FSNode) :
    topFileCount es + (dirsWalk p es).length = countFiles es := by
  match es with
  | [] => simp [topFileCount, dirsWalk, countFiles]
  | .file n :: rest =>
    have ih := dirsWalk_length p rest
    simp only [topFileCount, dirsWalk, countFiles]
    omega
  | .dir n es2 :: rest =>
    have ih1 := dirsWalk_length (joinPath p n) es2
    have ih2 := dirsWalk_length p rest
    have hf := filesHere_length (joinPath p n) es2
    simp only [topFileCount, dirsWalk, countFiles, List.length_append]
    omega

/-- The full `os.walk` enumeration yields one path per regular file in the
tree. -/
theorem walkDir_length (p : String) (es : List FSNode) :
    (walkDir p es).length = countFiles es := by
  have h1 := dirsWalk_length p es
  have h2 := filesHere_length p es
  simp only [walkDir, List.length_append]
  omega

/-- Claim C5: batch decryption of a directory enqueues exactly one decrypt
task per regular file found by the recursive traversal — every enqueued
task is a bare `('decrypt', path)` pair, so no classification happens at
enqueue time (the enqueue step consults no classifier at all; the worker
classifies when it consumes the task) — and a single file enqueues exactly
its own task. -/
theorem enqueue_directory_one_task_per_file :
    ∀ (path : String) (entries : List FSNode),
      (decrypt_file true path entries).length = countFiles entries ∧
      (∀ t ∈ decrypt_file true path entries, t.1 = "decrypt") ∧
      decrypt_file false path entries = [("decrypt", path)] := by
  intro path entries
  refine ⟨?_, ?_, rfl⟩
  · simp [decrypt_file, walkDir_length]
  · intro t ht
    simp only [decrypt_file, if_pos, List.mem_map] at ht
    obtain ⟨f, _, rfl⟩ := ht
    rfl

/-- Witness for C5 at a two-level directory with two files. -/
theorem enqueue_directory_one_task_per_file_witness :
    (decrypt_file true "r" [FSNode.file "a", FSNode.dir "d" [FSNode.file "b"]]).length =
      countFiles [FSNode.file "a", FSNode.dir "d" [FSNode.file "b"]] ∧
    (("decrypt", "r/a") : QueuedTask).1 = "decrypt" := by
  have h := enqueue_directory_one_task_per_file "r"
    [FSNode.file "a", FSNode.dir "d" [FSNode.file "b"]]
  refine ⟨h.1, h.2.1 ("decrypt", "r/a") ?_⟩
  simp [decrypt_file, walkDir, filesHere, dirsWalk, joinPath]

/-- The admission loop never grows the pool beyond `maxT`: each iteration
appends a worker only while the pool holds fewer than `maxT` entries. -/
theorem admitLoop_pool_le (maxT : Nat) :
    ∀ (q : List QueuedTask) (pool : List Worker) (nid : Nat),
      pool.length ≤ maxT → ((admitLoop maxT q pool nid).2.1).length ≤ maxT := by
  intro q
  induction q with
  | nil => intro pool nid h; simpa [admitLoop] using h
  | cons t rest ih =>
    intro pool nid h
    by_cases h1 : pool.length < maxT
    · by_cases h2 : t.1 = "decrypt"
      · simp only [admitLoop, if_pos h1, if_pos h2]
        exact ih _ _ (by simp; omega)
      · simp only [admitLoop, if_pos h1, if_neg h2]
        exact ih _ _ h
    · simpa [admitLoop, if_neg h1] using h

/-- The cleanup loop never grows the pool: it only removes entries. -/
theorem cleanupAux_length_le :
    ∀ (fuel : Nat) (pool : List Worker) (i : Nat),
      (cleanupAux fuel pool i).length ≤ pool.length := by
  intro fuel
  induction fuel with
  | zero => intro pool i; simp [cleanupAux]
  | succ n ih =>
    intro pool i
    simp only [cleanupAux]
    split
    · split
      · exact ih pool (i + 1)
      · exact (ih _ (i + 1)).trans (List.length_erase_le _ pool)
    · exact le_refl _

/-- Marking a worker finished does not change the pool size. -/
theorem finishWorker_length (j : Nat) (pool : List Worker) :
    (finishWorker j pool).length = pool.length :=
  List.length_map pool _

/-- Invariant of the dispatch loop: in every reachable state the thread
pool holds at most `maxT` entries. -/
theorem reach_pool_length_le {maxT : Nat} {s : SchedState}
    (h : SchedReachable maxT s) : s.pool.length ≤ maxT := by
  induction h with
  | init => simp
  | enqueue t _ ih => simpa using ih
  | tick _ ih =>
    simp only [schedTick]
    exact (cleanupAux_length_le _ _ 0).trans (admitLoop_pool_le _ _ _ _ ih)
  | finish j _ ih => simpa [finishWorker_length] using ih

/-- Claim C1: in every reachable scheduler state — any queue size, any
interleaving of enqueues, dispatch ticks and worker completions — the
number of started-and-not-yet-finished decrypt workers never exceeds the
configured `max_threads`, and when no configuration value is present that
bound defaults to 5. -/
theorem scheduler_live_worker_bound :
    ∀ (cfg : Option Nat) (s : SchedState),
      SchedReachable (maxThreadsSetting cfg) s →
      liveCount s.pool ≤ maxThreadsSetting cfg ∧ maxThreadsSetting none = 5 := by
  intro cfg s h
  refine ⟨?_, rfl⟩
  exact (List.length_filter_le _ s.pool).trans (reach_pool_length_le h)

/-- Witness for C1 at the default configuration, in the state reached by
enqueueing one task and running one dispatch tick. -/
theorem scheduler_live_worker_bound_witness :
    liveCount (schedTick (maxThreadsSetting none)
        ⟨[("decrypt", "f")], [], 0⟩).pool ≤ maxThreadsSetting none ∧
      maxThreadsSetting none = 5 :=
  scheduler_live_worker_bound none _
    (SchedReachable.tick (SchedReachable.enqueue ("decrypt", "f") SchedReachable.init))
